import Mathlib

/-!
Verification development for the snapped backend's external-search core:
normalization, deduplication, gateway retry handling, caching and result
filtering, shallowly embedded from the Python sources.

Modelling conventions:
* Python strings are Lean `String`s, processed through their `List Char` data.
  The text operations (lowercasing, whitespace classes, `\w`) are modelled on
  their ASCII behaviour, which covers every string the theorems touch.
* Python floats are modelled as rationals.  The similarity thresholds 0.70 and
  0.80 are exact rationals here; the doubles used by Python differ from them by
  less than 1e-16, which cannot change a comparison against a ratio 2*M/T
  unless T is of the order 1e16, far beyond any product title.
* Dictionaries holding heterogeneous JSON values are modelled by structures
  with `Option`-typed fields (a missing key is `none`), plus a small `JVal`
  type where a field may hold either a string or a number.
-/

namespace Snapped

/-- ASCII whitespace class of Python's `\s` / `str.strip` / `str.split`. -/
def isWs (c : Char) : Bool :=
  c = ' ' || c = '\t' || c = '\n' || c = '\r' || c = '\x0b' || c = '\x0c'

/-- Python's `\w` word-character class, restricted to ASCII. -/
def isWord (c : Char) : Bool :=
  c.isAlphanum || c = '_'

/-- `re.sub(r'\s+', ' ', s)`: every maximal whitespace run becomes one space. -/
def collapseWsAux : List Char → Bool → List Char
  | [], _ => []
  | c :: cs, inRun =>
    if isWs c then
      if inRun then collapseWsAux cs true else ' ' :: collapseWsAux cs true
    else
      c :: collapseWsAux cs false

def collapseWs (cs : List Char) : List Char :=
  collapseWsAux cs false

/-- `str.strip()` on the character list. -/
def stripChars (cs : List Char) : List Char :=
  ((cs.dropWhile isWs).reverse.dropWhile isWs).reverse

/-- `str.split()`: split on whitespace runs, dropping empty pieces. -/
def splitWsAux : List Char → List Char → List (List Char)
  | [], acc => if acc.isEmpty then [] else [acc.reverse]
  | c :: cs, acc =>
    if isWs c then
      if acc.isEmpty then splitWsAux cs [] else acc.reverse :: splitWsAux cs []
    else
      splitWsAux cs (c :: acc)

def splitWs (cs : List Char) : List (List Char) :=
  splitWsAux cs []

/-- A JSON scalar as held by the dynamic provider payloads: either a string
or a number.  (`null` / a missing key is `Option.none` at the field.) -/
inductive JVal where
  | s (v : String)
  | num (v : ℚ)
  deriving DecidableEq, Repr

/-- Python truthiness of a `JVal` (`""` and `0` are falsy). -/
def jTruthy : JVal → Bool
  | .s v => v ≠ ""
  | .num v => v ≠ 0

/-- Python `a or b` over optional JSON scalars (`None`, `""`, `0` falsy). -/
def pyOrJ (a b : Option JVal) : Option JVal :=
  match a with
  | some v => if jTruthy v then some v else b
  | none => b

/-- Python `a or b` over strings (`""` falsy). -/
def pyOrS (a b : String) : String :=
  if a = "" then b else a

/-- Python `a or b` over optional strings  (`None` and `""` falsy). -/
def pyOrOS (a b : Option String) : Option String :=
  match a with
  | some v => if v = "" then b else some v
  | none => b

/-- The uniform product record built by `process_google_lens_response`. -/
structure Product where
  title : String
  link : String
  image_url : String
  price : Option String
  brand : Option String
  source : String
  description : String
  rating : Option ℚ
  reviews_count : Option JVal
  deriving DecidableEq, Repr

/-- Truthiness of the `price` entry of a product dict (`None` or `""` falsy),
as used by `p.get("price")` filters. -/
def priceTruthy : Option String → Bool
  | some v => v ≠ ""
  | none => false

/-! ## difflib.SequenceMatcher (CPython, `isjunk=None`)

Embedded exactly: the `b2j` index with the autojunk-popular rule, the dynamic
programming of `find_longest_match` with its four extension loops, and the
divide-and-conquer accumulation of matching-block sizes.  `ratio()` is kept as
the exact rational `2*M/T`. -/

def listGetD (cs : List Char) (i : Nat) : Char :=
  cs.getD i ' '

/-- Autojunk: with `isjunk=None`, an element of `b` is junk iff `b` has at
least 200 elements and the element occurs in more than 1% of them. -/
def smJunk (b : List Char) (c : Char) : Bool :=
  200 ≤ b.length && b.length / 100 + 1 < b.count c

/-- `b2j`: ascending indices of `c` in `b`, with junk elements removed. -/
def smB2j (b : List Char) (c : Char) : List Nat :=
  if smJunk b c then []
  else (List.range b.length).filter (fun j => listGetD b j = c)

structure SmBest where
  bi : Nat
  bj : Nat
  bs : Nat
  deriving DecidableEq, Repr

/-- The dynamic-programming core of `find_longest_match`: for `i` in
`[alo, ahi)` and each `j` with `b[j] = a[i]` (skipping `j < blo`, stopping at
`j >= bhi`), extend the diagonal run ending at `(i, j)` and keep the first
longest run found. -/
def smDP (a : List Char) (b2j : Char → List Nat) (alo ahi blo bhi : Nat) : SmBest :=
  (((List.range (ahi - alo)).map (alo + ·)).foldl
    (fun (st : List (Nat × Nat) × SmBest) i =>
      let prev := st.1
      ((b2j (listGetD a i)).foldl
        (fun (acc : List (Nat × Nat) × SmBest) j =>
          if j < blo || bhi ≤ j then acc
          else
            let k := (match prev.find? (fun p => p.1 == j - 1) with
              | some p => p.2
              | none => 0) + 1
            let best := if acc.2.bs < k then ⟨i + 1 - k, j + 1 - k, k⟩ else acc.2
            ((j, k) :: acc.1, best))
        ([], st.2)))
    ([], ⟨alo, blo, 0⟩)).2

/-- One of the `while` loops extending the best block downwards:
grows while `a[bi-1] = b[bj-1]` and the junkness of `b[bj-1]` equals
`wantJunk`.  Fuel bounds the iteration count (each step decreases `bi`). -/
def smExtendLo (a b : List Char) (junk : Char → Bool) (alo blo : Nat)
    (wantJunk : Bool) : Nat → SmBest → SmBest
  | 0, best => best
  | fuel + 1, best =>
    if alo < best.bi && blo < best.bj &&
        junk (listGetD b (best.bj - 1)) == wantJunk &&
        listGetD a (best.bi - 1) == listGetD b (best.bj - 1) then
      smExtendLo a b junk alo blo wantJunk fuel ⟨best.bi - 1, best.bj - 1, best.bs + 1⟩
    else best

/-- The `while` loops extending the best block upwards. -/
def smExtendHi (a b : List Char) (junk : Char → Bool) (ahi bhi : Nat)
    (wantJunk : Bool) : Nat → SmBest → SmBest
  | 0, best => best
  | fuel + 1, best =>
    if best.bi + best.bs < ahi && best.bj + best.bs < bhi &&
        junk (listGetD b (best.bj + best.bs)) == wantJunk &&
        listGetD a (best.bi + best.bs) == listGetD b (best.bj + best.bs) then
      smExtendHi a b junk ahi bhi wantJunk fuel ⟨best.bi, best.bj, best.bs + 1⟩
    else best

/-- `SequenceMatcher.find_longest_match` on the slice
`a[alo:ahi]`, `b[blo:bhi]`. -/
def smFindLongest (a b : List Char) (b2j : Char → List Nat) (junk : Char → Bool)
    (alo ahi blo bhi : Nat) : SmBest :=
  let d := smDP a b2j alo ahi blo bhi
  let d := smExtendLo a b junk alo blo false d.bi d
  let d := smExtendHi a b junk ahi bhi false ahi d
  let d := smExtendLo a b junk alo blo true d.bi d
  let d := smExtendHi a b junk ahi bhi true ahi d
  d

/-- Total size `M` of the matching blocks (the recursion of
`get_matching_blocks`, summing the block sizes).  Fuel dominates the recursion
depth; each recursive call strictly shrinks the combined slice. -/
def smMatchSum (a b : List Char) (b2j : Char → List Nat) (junk : Char → Bool) :
    Nat → Nat → Nat → Nat → Nat → Nat
  | 0, _, _, _, _ => 0
  | fuel + 1, alo, ahi, blo, bhi =>
    let m := smFindLongest a b b2j junk alo ahi blo bhi
    if m.bs = 0 then 0
    else
      smMatchSum a b b2j junk fuel alo m.bi blo m.bj + m.bs +
        smMatchSum a b b2j junk fuel (m.bi + m.bs) ahi (m.bj + m.bs) bhi

/-- `M` for the full strings. -/
def smM (a b : List Char) : Nat :=
  smMatchSum a b (smB2j b) (smJunk b) (a.length + b.length + 1) 0 a.length 0 b.length

/-- `SequenceMatcher(None, a, b).ratio() >= p/q` decided exactly:
the ratio is `2*M/T` (`1.0` when both strings are empty), so the comparison
is the cross-multiplied `p*T <= 2*M*q`.  Keeping the comparison in `Nat`
avoids floating point; the doubles Python compares differ from the exact
thresholds by less than 1e-16, which cannot flip a comparison against a
fraction whose denominator is a sum of two title lengths. -/
def smRatioGe (a b : String) (p q : Nat) : Bool :=
  let t := a.length + b.length
  if t = 0 then p ≤ q else p * t ≤ 2 * smM a.data b.data * q

namespace Dedup

/-- `deduplication.normalize_title`: lowercase, drop non-word non-space
characters, collapse/strip whitespace, drop stop words, re-join. -/
def stop_words : List String :=
  ["the", "a", "an", "and", "or", "but", "in", "on", "at", "to", "for", "with", "by"]

def normalize_title (title : String) : String :=
  let n := title.data.map Char.toLower
  let n := n.filter (fun c => isWord c || isWs c)
  let n := stripChars (collapseWs n)
  let ws := (splitWs n).map String.mk
  String.intercalate " " (ws.filter (fun w => ¬ stop_words.contains w))

/-- `deduplication.is_similar_title` with the threshold as the exact
rational `thrNum/thrDen` (the call site passes 0.70 as `7/10`; the default is
0.85).  The length-ratio guard `min/max < 0.7` (with ratio `0` when both
titles are empty) and the `+ 0.1` bump for short titles are the same
comparisons cross-multiplied into `Nat`. -/
def is_similar_title (title1 title2 : String) (thrNum thrDen : Nat) : Bool :=
  let l1 := title1.length
  let l2 := title2.length
  if max l1 l2 = 0 then false
  else if 10 * min l1 l2 < 7 * max l1 l2 then false
  else if min l1 l2 < 10 then smRatioGe title1 title2 (10 * thrNum + thrDen) (10 * thrDen)
  else smRatioGe title1 title2 thrNum thrDen

/-- First pass of `deduplication.filter_duplicates`: exact raw-title set plus
fuzzy matching over seen normalized titles at threshold 0.70. -/
def fuzzyAux : List Product → List String → List String → List Product
  | [], _, _ => []
  | p :: rest, seenT, seenN =>
    if p.title = "" then fuzzyAux rest seenT seenN
    else if p.title ∈ seenT then fuzzyAux rest seenT seenN
    else
      let nt := normalize_title p.title
      if seenN.any (fun s => is_similar_title nt s 7 10) then fuzzyAux rest seenT seenN
      else p :: fuzzyAux rest (p.title :: seenT) (nt :: seenN)

def fuzzyPass (products : List Product) : List Product :=
  fuzzyAux products [] []

/-- Relaxed pass: exact raw-title matching only, stopping as soon as 30
records are kept (the `break` fires right after the 30th append). -/
def exactAux : List Product → List String → Nat → List Product
  | [], _, _ => []
  | p :: rest, seen, kept =>
    if p.title = "" ∨ p.title ∈ seen then exactAux rest seen kept
    else if 30 ≤ kept + 1 then [p]
    else p :: exactAux rest (p.title :: seen) (kept + 1)

def exactPass (products : List Product) : List Product :=
  exactAux products [] 0

/-- `deduplication.filter_duplicates`. -/
def filter_duplicates (products : List Product) : List Product :=
  if products.isEmpty then []
  else
    let unique := fuzzyPass products
    if unique.length < 20 ∧ 20 < products.length then exactPass products
    else unique

end Dedup

namespace Serpapi

/-- One leftmost-match step of `re.sub(r'\(Similar Item \d+\)', '', title)`:
if the list starts with the literal `(Similar Item `, one or more digits and
`)`, return the remainder after the match. -/
def matchSimilarItem (cs : List Char) : Option (List Char) :=
  match cs.dropPrefix? "(Similar Item ".data with
  | none => none
  | some rest =>
    let ds := rest.takeWhile Char.isDigit
    let r := rest.dropWhile Char.isDigit
    if ds.isEmpty then none
    else
      match r with
      | ')' :: r2 => some r2
      | _ => none

def removeSimilarItemAux : Nat → List Char → List Char
  | 0, cs => cs
  | _ + 1, [] => []
  | fuel + 1, c :: cs =>
    match matchSimilarItem (c :: cs) with
    | some r => removeSimilarItemAux fuel r
    | none => c :: removeSimilarItemAux fuel cs

/-- One leftmost-match step of `re.sub(r'\s*\([^\)]*\)', '', title)`:
a whitespace run, `(`, non-`)` characters, `)`.  (The greedy `\s*` must end
exactly at a `(`, since whitespace cannot satisfy the `\(`.) -/
def matchParen (cs : List Char) : Option (List Char) :=
  match cs.dropWhile isWs with
  | '(' :: r =>
    match r.dropWhile (fun c => c ≠ ')') with
    | ')' :: rem => some rem
    | _ => none
  | _ => none

def removeParenAux : Nat → List Char → List Char
  | 0, cs => cs
  | _ + 1, [] => []
  | fuel + 1, c :: cs =>
    match matchParen (c :: cs) with
    | some r => removeParenAux fuel r
    | none => c :: removeParenAux fuel cs

/-- `serpapi_service.normalize_title`: strip `(Similar Item N)` annotations,
strip any parenthesised detail with its leading whitespace, collapse and trim
whitespace, lowercase. -/
def normalize_title (title : String) : String :=
  if title = "" then title
  else
    let cs := removeSimilarItemAux title.data.length title.data
    let cs := removeParenAux cs.length cs
    let cs := stripChars (collapseWs cs)
    String.mk (cs.map Char.toLower)

/-- The loop body of `serpapi_service.filter_duplicates` as a recursion over
the remaining products, carrying the set of seen normalized titles. -/
def filterDupsAux : List Product → List String → List Product
  | [], _ => []
  | p :: rest, seen =>
    let nt := normalize_title p.title
    if nt ∈ seen then filterDupsAux rest seen
    else p :: filterDupsAux rest (nt :: seen)

/-- `serpapi_service.filter_duplicates`: keep the first product for each
normalized title. -/
def filter_duplicates (products : List Product) : List Product :=
  filterDupsAux products []

/-- The deduplication behaviour of `serpapi_service.filter_duplicates` stated
the way the spec words an exact dedup: keep each record, drop every later
record whose normalized title coincides.  Used as the comparison point of the
refinement theorem for C2. -/
def dedupByNormalizedTitle : List Product → List Product
  | [] => []
  | p :: rest =>
    p :: dedupByNormalizedTitle
      (rest.filter (fun q => ¬ normalize_title q.title = normalize_title p.title))
  termination_by l => l.length
  decreasing_by
    simp only [List.length_cons]
    exact Nat.lt_succ_of_le (List.length_filter_le _ _)

/-! ### Price helpers -/

def currencySymbols : List Char := ['$', '€', '£', '¥', '₹']

/-- A match of `[\$€£¥₹]\s*[\d,]+\.?\d*` starting at the head of `cs`
(greedy, as the regex has no later constraints to backtrack for). -/
def matchCurrencyAt (cs : List Char) : Option (List Char) :=
  match cs with
  | [] => none
  | c :: rest =>
    if currencySymbols.contains c then
      let ws := rest.takeWhile isWs
      let r1 := rest.dropWhile isWs
      let dc := r1.takeWhile (fun d => d.isDigit || d = ',')
      let r2 := r1.dropWhile (fun d => d.isDigit || d = ',')
      if dc.isEmpty then none
      else
        match r2 with
        | '.' :: r3 => some (c :: ws ++ dc ++ '.' :: r3.takeWhile Char.isDigit)
        | _ => some (c :: ws ++ dc)
    else none

def searchCurrency : List Char → Option (List Char)
  | [] => none
  | c :: cs =>
    match matchCurrencyAt (c :: cs) with
    | some m => some m
    | none => searchCurrency cs

/-- A match of `\d+[,.]?\d*` starting at the head of `cs`. -/
def matchNumAt (cs : List Char) : Option (List Char) :=
  let ds := cs.takeWhile Char.isDigit
  let r := cs.dropWhile Char.isDigit
  if ds.isEmpty then none
  else
    match r with
    | c :: r2 =>
      if c = ',' || c = '.' then some (ds ++ c :: r2.takeWhile Char.isDigit)
      else some ds
    | [] => some ds

def searchNum : List Char → Option (List Char)
  | [] => none
  | c :: cs =>
    match matchNumAt (c :: cs) with
    | some m => some m
    | none => searchNum cs

/-- `serpapi_service.normalize_price`: `None` on a falsy input; otherwise
strip and collapse whitespace, return the first currency-symbol price token,
else the first bare numeric token, else the (collapsed) input itself. -/
def normalize_price (price_str : String) : Option String :=
  if price_str = "" then none
  else
    let collapsed := collapseWs (stripChars price_str.data)
    match searchCurrency collapsed with
    | some m => some (String.mk m)
    | none =>
      match searchNum collapsed with
      | some m => some (String.mk m)
      | none => some (String.mk collapsed)

/-- `serpapi_service.extract_price_from_text`. -/
def extract_price_from_text (text : Option String) : Option String :=
  match text with
  | none => none
  | some t => if t = "" then none else normalize_price t

/-! ### Brand extraction -/

def sepChars : List Char := ['-', '–', '|']

/-- After a candidate group, `\s+[-–|]` must follow: a nonempty whitespace
run whose following character is a separator. -/
def wsThenSep (cs : List Char) : Bool :=
  let ws := cs.takeWhile isWs
  match cs.dropWhile isWs with
  | s :: _ => ¬ ws.isEmpty && sepChars.contains s
  | [] => false

/-- The lazy group of `^([\w\s]+?)\s+[-–|]`: grow the word/space prefix one
character at a time and stop at the first length after which `\s+[-–|]`
matches. -/
def brandPat1Aux (acc : List Char) : List Char → Option (List Char)
  | [] => none
  | c :: cs =>
    if ¬ (isWord c || isWs c) then none
    else
      let acc2 := acc ++ [c]
      if wsThenSep cs then some acc2
      else brandPat1Aux acc2 cs

def brandPat1 (cs : List Char) : Option (List Char) :=
  brandPat1Aux [] cs

/-- Case-insensitive prefix test (the patterns use `re.IGNORECASE`). -/
def startsWithCI : List Char → List Char → Bool
  | [], _ => true
  | _ :: _, [] => false
  | k :: ks, c :: cs => k = c.toLower && startsWithCI ks cs

/-- Leftmost match of `kw\s+([\w\s]+)` (IGNORECASE), returning the stripped
group.  Greedy `\s+` takes the full run; if no word/space character follows,
the regex backtracks one whitespace character into the group (possible only
when the run has length at least two), making the group that single
whitespace character, which strips to `""`. -/
def findKwGroup (kw : List Char) : List Char → Option String
  | [] => none
  | c :: cs =>
    if startsWithCI kw (c :: cs) then
      let rest := (c :: cs).drop kw.length
      let ws := rest.takeWhile isWs
      let r1 := rest.dropWhile isWs
      if ws.isEmpty then findKwGroup kw cs
      else
        let g := r1.takeWhile (fun d => isWord d || isWs d)
        if ¬ g.isEmpty then some (String.mk (stripChars g))
        else if 2 ≤ ws.length then some ""
        else findKwGroup kw cs
    else findKwGroup kw cs

/-- `serpapi_service.extract_brand_from_title`. -/
def extract_brand_from_title (title : String) : Option String :=
  if title = "" then none
  else
    match brandPat1 title.data with
    | some g => some (String.mk (stripChars g))
    | none =>
      match findKwGroup "by".data title.data with
      | some g => some g
      | none =>
        match findKwGroup "from".data title.data with
        | some g => some g
        | none =>
          match splitWs title.data with
          | w :: _ => if (listGetD w 0).isUpper then some (String.mk w) else none
          | [] => none

/-! ### Response processing -/

/-- The `price` object of a visual-match item (`item.get("price", {})`),
holding an optional `value` string. -/
structure PriceField where
  value : Option String
  deriving DecidableEq, Repr

/-- A `visual_matches` item, with one field per key the code reads. -/
structure VisualItem where
  title : Option String
  snippet : Option String
  price : Option PriceField
  link : Option String
  source : Option String
  thumbnail : Option String
  original : Option String
  rating : Option JVal
  reviews : Option JVal
  reviews_count : Option JVal
  deriving DecidableEq, Repr

/-- A `shopping_results` item, with one field per key the code reads. -/
structure ShoppingItem where
  title : Option String
  snippet : Option String
  price : Option String
  link : Option String
  source : Option String
  thumbnail : Option String
  rating : Option JVal
  reviews : Option JVal
  reviews_count : Option JVal
  deriving DecidableEq, Repr

/-- Python `(x or "").strip()` for an optional string field. -/
def orEmptyStrip (v : Option String) : String :=
  String.mk (stripChars (v.getD "").data)

/-- The visual-matches loop body of `process_google_lens_response`. -/
def procVisual (item : VisualItem) : Product :=
  let title := orEmptyStrip item.title
  let snippet := orEmptyStrip item.snippet
  let price_value :=
    match item.price with
    | some pf => pf.value.getD ""
    | none => ""
  { title := title
    link := pyOrS (item.link.getD "") (pyOrS (item.source.getD "") "")
    image_url := pyOrS (item.thumbnail.getD "") (pyOrS (item.original.getD "") "")
    price := some price_value
    brand := extract_brand_from_title title
    source := "visual_matches"
    description := snippet
    rating := match item.rating with
      | some (.num q) => some q
      | _ => none
    reviews_count := pyOrJ item.reviews (pyOrJ item.reviews_count none) }

/-- The shopping-results loop body of `process_google_lens_response`. -/
def procShopping (item : ShoppingItem) : Product :=
  let title := orEmptyStrip item.title
  let snippet := orEmptyStrip item.snippet
  let price :=
    pyOrOS (normalize_price (item.price.getD ""))
      (pyOrOS (extract_price_from_text (some title))
        (extract_price_from_text (some snippet)))
  { title := pyOrS title "Unknown Product"
    link := item.link.getD ""
    image_url := item.thumbnail.getD ""
    price := price
    brand := some (pyOrS (item.source.getD "") (pyOrS ((extract_brand_from_title title).getD "") ""))
    source := "shopping_results"
    description := snippet
    rating := match item.rating with
      | some (.num q) => some q
      | _ => none
    reviews_count := pyOrJ item.reviews (pyOrJ item.reviews_count none) }

/-- The parsed Google Lens payload: error flag and the two sub-channels. -/
structure LensData where
  hasError : Bool
  visual_matches : List VisualItem
  shopping_results : List ShoppingItem
  deriving DecidableEq, Repr

/-- The item-mapping stage of `process_google_lens_response`: both
sub-channels normalized into `Product` records, visual matches first. -/
def parseProducts (data : LensData) : List Product :=
  data.visual_matches.map procVisual ++ data.shopping_results.map procShopping

/-- `serpapi_service.process_google_lens_response` (with the configured
`MAX_SIMILAR_PRODUCTS` cap as a parameter). -/
def process_google_lens_response (data : LensData) (maxResults : Nat) : List Product :=
  if data.hasError then []
  else
    let unique := filter_duplicates (parseProducts data)
    let withPrice := unique.filter (fun p => priceTruthy p.price)
    if withPrice.isEmpty then [] else withPrice.take maxResults

end Serpapi

namespace Gateway

/-- What one outbound attempt of `search_similar_products` observes:
a transport-level failure (`httpx.TimeoutException` / `httpx.ConnectError`),
an HTTP response with its status, parsed `Retry-After` hint and payload, or
any other exception. -/
inductive Response where
  | transport
  | http (status : Nat) (retryAfter : Option ℚ) (data : Serpapi.LensData)
  | unexpected
  deriving DecidableEq

/-- How `search_similar_products` terminates. -/
inductive Outcome where
  | returned (products : List Product)
  | raised
  deriving DecidableEq

/-- Externally visible steps of the retry loop: an outbound call for a given
attempt index, or an `asyncio.sleep` of the given duration in seconds. -/
inductive Event where
  | call (attempt : Nat)
  | sleep (seconds : ℚ)
  deriving DecidableEq

/-- `_sleep_with_jitter(base)` sleeps `base + base * 0.25 * (byte / 255)`;
the random byte is abstracted into the oracle value `jit attempt ∈ [0, 1]`. -/
def jitterSleep (base : ℚ) (jitVal : ℚ) : ℚ :=
  base + base * (1/4) * jitVal

/-- The `for attempt in range(3)` body of `search_similar_products`.
`resp` is the oracle of per-attempt observations and `jit` the jitter oracle;
the fuel counts the attempts left (exhaustion is the `return []` after the
loop). -/
def runAttempts (resp : Nat → Response) (jit : Nat → ℚ) (maxResults : Nat) :
    Nat → Nat → Outcome × List Event
  | 0, _ => (.returned [], [])
  | fuel + 1, attempt =>
    match resp attempt with
    | .transport =>
      if attempt = 2 then (.raised, [.call attempt])
      else
        let next := runAttempts resp jit maxResults fuel (attempt + 1)
        (next.1, .call attempt :: .sleep (jitterSleep (2 ^ attempt) (jit attempt)) :: next.2)
    | .http status retryAfter data =>
      if status = 429 then
        if attempt = 2 then (.returned [], [.call attempt])
        else
          let next := runAttempts resp jit maxResults fuel (attempt + 1)
          (next.1, .call attempt :: .sleep (retryAfter.getD 2) :: next.2)
      else if 400 ≤ status then
        if 500 ≤ status ∧ status < 600 ∧ attempt < 2 then
          let next := runAttempts resp jit maxResults fuel (attempt + 1)
          (next.1, .call attempt :: .sleep (jitterSleep (2 ^ attempt) (jit attempt)) :: next.2)
        else (.returned [], [.call attempt])
      else
        let products := Serpapi.process_google_lens_response data maxResults
        if products.isEmpty then (.returned [], [.call attempt])
        else (.returned (products.filter (fun p => priceTruthy p.price)), [.call attempt])
    | .unexpected =>
      if attempt = 2 then (.raised, [.call attempt])
      else
        let next := runAttempts resp jit maxResults fuel (attempt + 1)
        (next.1, .call attempt :: .sleep (jitterSleep (2 ^ attempt) (jit attempt)) :: next.2)

/-- `serpapi_service.search_similar_products`: a missing API key
short-circuits to an empty result with no outbound call, otherwise the
3-attempt loop runs. -/
def search_similar_products (hasApiKey : Bool) (resp : Nat → Response)
    (jit : Nat → ℚ) (maxResults : Nat) : Outcome × List Event :=
  if hasApiKey then runAttempts resp jit maxResults 3 0
  else (.returned [], [])

end Gateway

namespace Cache

/-- A stored cache entry: the memoized result and its insertion
timestamp. -/
structure Entry (α : Type) where
  result : α
  timestamp : ℚ
  deriving DecidableEq

/-- The in-memory stores (`performance._cache`,
`redis_cache._memory_cache`) as insertion-ordered key/value lists. -/
abbrev Store (α : Type) : Type := List (String × Entry α)

def storeLookup {α : Type} (store : Store α) (key : String) : Option (Entry α) :=
  (List.find? (fun kv => kv.1 == key) store).map (fun kv => kv.2)

/-- Python dict assignment: overwrite in place if the key exists, else
append. -/
def storeInsert {α : Type} (store : Store α) (key : String) (e : Entry α) : Store α :=
  if List.any store (fun kv => kv.1 == key) then
    List.map (fun kv => if kv.1 == key then (key, e) else kv) store
  else store ++ [(key, e)]

/-- One wrapped call through `performance.async_cache`: serve a hit younger
than the TTL, otherwise call the wrapped function and store its result.
`tLookup` and `tStore` are the two `time.time()` readings; the returned flag
records whether the wrapped function was called. -/
def async_cache_call {α : Type} (ttl : ℚ) (store : Store α) (key : String)
    (tLookup tStore : ℚ) (compute : α) : α × Store α × Bool :=
  match storeLookup store key with
  | some entry =>
    if tLookup - entry.timestamp < ttl then (entry.result, store, false)
    else (compute, storeInsert store key ⟨compute, tStore⟩, true)
  | none => (compute, storeInsert store key ⟨compute, tStore⟩, true)

/-- The clean-up in `redis_cache`'s in-memory branch: when the store exceeds
1000 entries, drop (up to) the first 100 whose age exceeds the TTL. -/
def evictOld {α : Type} (store : Store α) (tEvict ttl : ℚ) : Store α :=
  if 1000 < store.length then
    let expired := (List.map (fun kv => kv.1)
      (List.filter (fun kv => decide (ttl < tEvict - kv.2.timestamp)) store)).take 100
    List.filter (fun kv => ¬ expired.contains kv.1) store
  else store

/-- One wrapped call through `redis_cache.redis_cache` with Redis disabled
(the in-memory fallback branch): same hit test, then store plus the size-1000
clean-up. -/
def redis_mem_call {α : Type} (ttl : ℚ) (store : Store α) (key : String)
    (tLookup tStore tEvict : ℚ) (compute : α) : α × Store α × Bool :=
  match storeLookup store key with
  | some entry =>
    if tLookup - entry.timestamp < ttl then (entry.result, store, false)
    else (compute, evictOld (storeInsert store key ⟨compute, tStore⟩) tEvict ttl, true)
  | none => (compute, evictOld (storeInsert store key ⟨compute, tStore⟩) tEvict ttl, true)

end Cache

namespace Db

/-- The columns of a persisted `SearchResult` row read by
`get_filtered_results`. -/
structure SearchRow where
  search_id : Nat
  brand : String
  price : String
  source : String
  deriving DecidableEq, Repr

/-- `schemas.ProductFilter`.  The price bounds are carried as the `str()`
rendering of the Python float (e.g. `"20.0"`), which is the only way the code
consumes them: interpolated into the REGEXP pattern text. -/
structure ProductFilter where
  brand : Option (List String)
  price_min : Option String
  price_max : Option String
  source : Option (List String)
  deriving DecidableEq, Repr

/-- Tokens of the regex patterns `get_filtered_results` builds:
`[0-9]+`, the optional `(\.[0-9]+)?` group, a literal character, and `.`
(any character, from the float rendering interpolated into the pattern). -/
inductive RTok where
  | digitsPlus
  | fracOpt
  | lit (c : Char)
  | anyc
  deriving DecidableEq, Repr

/-- Can the token list match some prefix of the input (with backtracking)?
Structurally recursive on a fuel argument; every recursive call shrinks
`tokens + input`, so `reMatch` supplies enough fuel for the full search. -/
def reMatchAux : Nat → List RTok → List Char → Bool
  | 0, _, _ => false
  | _ + 1, [], _ => true
  | fuel + 1, .lit c :: ps, d :: ds => c = d && reMatchAux fuel ps ds
  | _ + 1, .lit _ :: _, [] => false
  | fuel + 1, .anyc :: ps, _ :: ds => reMatchAux fuel ps ds
  | _ + 1, .anyc :: _, [] => false
  | fuel + 1, .digitsPlus :: ps, d :: ds =>
    d.isDigit && (reMatchAux fuel ps ds || reMatchAux fuel (.digitsPlus :: ps) ds)
  | _ + 1, .digitsPlus :: _, [] => false
  | fuel + 1, .fracOpt :: ps, ds =>
    reMatchAux fuel ps ds ||
      (match ds with
       | '.' :: ds2 => reMatchAux fuel (.digitsPlus :: ps) ds2
       | _ => false)

def reMatch (ps : List RTok) (ds : List Char) : Bool :=
  reMatchAux (ps.length + ds.length + 1) ps ds

/-- Unanchored REGEXP semantics: some suffix of the column value starts with
a match. -/
def reSearch (ps : List RTok) (s : String) : Bool :=
  (List.tails s.data).any (fun t => reMatch ps t)

/-- The pattern built by `f'[0-9]+(\.[0-9]+)? {cmp} {bound}'` where `bound`
is the rendered float: a `.` inside the rendering is the regex any-character
metachar. -/
def pricePattern (cmp : String) (bound : String) : List RTok :=
  [.digitsPlus, .fracOpt] ++ (" " ++ cmp ++ " ").data.map RTok.lit ++
    bound.data.map (fun c => if c = '.' then RTok.anyc else RTok.lit c)

/-- `db_service.get_filtered_results` over an in-memory row list: filter by
search id, then brand (case-insensitive substring, OR over the list), the two
REGEXP price conditions, and source membership; count the filtered set, then
paginate. -/
def lowerList (cs : List Char) : List Char :=
  cs.map Char.toLower

def containsSub (hay needle : List Char) : Bool :=
  (List.tails hay).any (fun t => (List.dropPrefix? t needle).isSome)

def ilikeContains (column pat : String) : Bool :=
  containsSub (lowerList column.data) (lowerList pat.data)

def get_filtered_results (rows : List SearchRow) (search_id : Nat)
    (filters : Option ProductFilter) (skip limit : Nat) :
    List SearchRow × Nat :=
  let q := rows.filter (fun r => r.search_id == search_id)
  let q :=
    match filters with
    | none => q
    | some f =>
      let q :=
        match f.brand with
        | some (b :: bs) => q.filter (fun r => (b :: bs).any (fun br => ilikeContains r.brand br))
        | _ => q
      let q :=
        match f.price_min with
        | some v => q.filter (fun r => reSearch (pricePattern ">=" v) r.price)
        | none => q
      let q :=
        match f.price_max with
        | some v => q.filter (fun r => reSearch (pricePattern "<=" v) r.price)
        | none => q
      match f.source with
      | some (s :: ss) => q.filter (fun r => (s :: ss).contains r.source)
      | _ => q
  (List.take limit (List.drop skip q), q.length)

end Db

/-! ## Concrete inputs for the witnesses and counterexamples -/

/-- `isinstance(v, (int, float))` on a JSON scalar. -/
def isNumber : JVal → Bool
  | .num _ => true
  | .s _ => false

/-- A product record carrying only a title (the other fields are the values
`process_google_lens_response` would fill for a bare shopping item). -/
def exP (t : String) : Product :=
  ⟨t, "", "", some "$5", none, "shopping_results", "", none, none⟩

/-- Five punctuation marks that `deduplication.normalize_title` strips. -/
def punctChars : List Char := ['.', ',', ';', ':', '!']

/-- 25 pairwise-distinct titles (`Widget` plus two punctuation marks) that
all normalize to `widget`, so the fuzzy pass collapses them to one. -/
def c1Titles : List String :=
  punctChars.flatMap (fun a => punctChars.map (fun b => String.mk ("Widget".data ++ [a, b])))

/-- 25 records with pairwise-distinct non-empty titles that fuzzy matching
collapses to a single record. -/
def c1WitnessProducts : List Product :=
  c1Titles.map exP

/-- 25 records whose fuzzy pass also keeps a single record, but with only 13
distinct raw titles (13 punctuation variants plus 12 repeats of the
first). -/
def c1CexProducts : List Product :=
  (c1Titles.take 13).map exP ++ List.replicate 12 (exP (c1Titles.headD ""))

/-- A shopping item with the given title and a structured price. -/
def c2Item (t : String) : Serpapi.ShoppingItem :=
  ⟨some t, none, some "$5", none, none, none, none, none, none⟩

/-- A payload whose two items differ only in a parenthesised title suffix:
the module-local dedup merges them, the `deduplication.py` dedup keeps
both. -/
def c2Data : Serpapi.LensData :=
  ⟨false, [], [c2Item "Ab (1)", c2Item "Ab (2)"]⟩

def c2Products : List Product :=
  Serpapi.parseProducts c2Data

/-- A shopping item with no structured price, no snippet, and a title
containing no digit and no currency symbol. -/
def c6Item : Serpapi.ShoppingItem :=
  ⟨some "Nice Shirt", none, none, none, none, none, none, none, none⟩

/-- A visual-match item whose `reviews` field holds a non-numeric string and
whose `rating` holds a genuine number. -/
def c7Item : Serpapi.VisualItem :=
  ⟨some "Hat", none, none, none, none, none, none, some (JVal.num 4), some (JVal.s "1,2k"), none⟩

/-- A shopping item with a string rating, for the shopping-side witness. -/
def c7ShopItem : Serpapi.ShoppingItem :=
  ⟨some "Hat", none, some "$5", none, none, none, some (JVal.s "4.5 stars"), none, some (JVal.num 12)⟩

/-- The two persisted rows of the spec's price-filter test. -/
def c8Rows : List Db.SearchRow :=
  [⟨1, "", "$10.00", "visual_matches"⟩, ⟨1, "", "$25.50", "visual_matches"⟩]

/-- `price_max=20` as `get_filtered_results` consumes it: the rendered float
`"20.0"` interpolated into the REGEXP pattern. -/
def c8Filter : Db.ProductFilter :=
  ⟨none, none, some "20.0", none⟩

/-- A row whose price string happens to contain the literal pattern text. -/
def c8LiteralRow : Db.SearchRow :=
  ⟨1, "", "99 <= 20.0", "visual_matches"⟩

/-- A one-entry cache store: the key `k` inserted at time 0. -/
def c9Store : Cache.Store Nat := [("k", ⟨7, 0⟩)]

/-! ## Helper lemmas -/

theorem fuzzyAux_title_ne (l : List Product) : ∀ (seenT seenN : List String) (p : Product),
    p ∈ Dedup.fuzzyAux l seenT seenN → p.title ≠ "" := by
  induction l with
  | nil => intro seenT seenN p hp; simp [Dedup.fuzzyAux] at hp
  | cons q rest ih =>
    intro seenT seenN p hp
    simp only [Dedup.fuzzyAux] at hp
    split_ifs at hp with h1 h2 h3
    · exact ih _ _ _ hp
    · exact ih _ _ _ hp
    · exact ih _ _ _ hp
    · rcases List.mem_cons.mp hp with rfl | hmem
      · exact h1
      · exact ih _ _ _ hmem

theorem exactAux_title_ne (l : List Product) : ∀ (seen : List String) (kept : Nat) (p : Product),
    p ∈ Dedup.exactAux l seen kept → p.title ≠ "" := by
  induction l with
  | nil => intro seen kept p hp; simp [Dedup.exactAux] at hp
  | cons q rest ih =>
    intro seen kept p hp
    simp only [Dedup.exactAux] at hp
    split_ifs at hp with h1 h2
    · exact ih _ _ _ hp
    · rcases List.mem_singleton.mp hp with rfl
      exact (not_or.mp h1).1
    · rcases List.mem_cons.mp hp with rfl | hmem
      · exact (not_or.mp h1).1
      · exact ih _ _ _ hmem

/-- When every record is titled, fresh with respect to `seen`, the titles are
pairwise distinct, and at most `30 - kept` records remain, the relaxed exact
pass keeps everything. -/
theorem exactAux_of_fresh (l : List Product) : ∀ (seen : List String) (kept : Nat),
    (∀ p ∈ l, p.title ≠ "") → (∀ p ∈ l, p.title ∉ seen) →
    (l.map Product.title).Nodup → kept + l.length ≤ 30 →
    Dedup.exactAux l seen kept = l := by
  induction l with
  | nil => intro seen kept _ _ _ _; rfl
  | cons q rest ih =>
    intro seen kept hne hfresh hnd hlen
    have hq : ¬ (q.title = "" ∨ q.title ∈ seen) :=
      not_or.mpr ⟨hne q (List.mem_cons_self q rest), hfresh q (List.mem_cons_self q rest)⟩
    rw [Dedup.exactAux, if_neg hq]
    simp only [List.map_cons, List.nodup_cons] at hnd
    by_cases h30 : 30 ≤ kept + 1
    · rw [if_pos h30]
      have hr : rest = [] := by
        have := List.length_cons q rest ▸ hlen
        exact List.length_eq_zero.mp (by omega)
      rw [hr]
    · rw [if_neg h30]
      congr 1
      refine ih (q.title :: seen) (kept + 1)
        (fun p hp => hne p (List.mem_cons_of_mem q hp)) ?_ hnd.2 ?_
      · intro p hp
        simp only [List.mem_cons, not_or]
        refine ⟨fun heq => hnd.1 (heq ▸ List.mem_map_of_mem Product.title hp), hfresh p (List.mem_cons_of_mem q hp)⟩
      · have := List.length_cons q rest ▸ hlen
        omega

theorem dedupBy_nil : Serpapi.dedupByNormalizedTitle [] = [] := by
  rw [Serpapi.dedupByNormalizedTitle]

theorem dedupBy_cons (p : Product) (l : List Product) :
    Serpapi.dedupByNormalizedTitle (p :: l) =
      p :: Serpapi.dedupByNormalizedTitle
        (l.filter (fun q => ¬ Serpapi.normalize_title q.title = Serpapi.normalize_title p.title)) := by
  rw [Serpapi.dedupByNormalizedTitle]

/-- The accumulator form of `serpapi_service.filter_duplicates` agrees with
the spec-style recursion once the already-seen titles are filtered away. -/
theorem filterDupsAux_eq_dedupBy (l : List Product) : ∀ (seen : List String),
    Serpapi.filterDupsAux l seen =
      Serpapi.dedupByNormalizedTitle
        (l.filter (fun q => Serpapi.normalize_title q.title ∉ seen)) := by
  induction l with
  | nil => intro seen; simp [Serpapi.filterDupsAux, dedupBy_nil]
  | cons p rest ih =>
    intro seen
    by_cases hc : Serpapi.normalize_title p.title ∈ seen
    · simp only [Serpapi.filterDupsAux, if_pos hc, List.filter_cons]
      rw [if_neg (by simp [hc])]
      exact ih seen
    · simp only [Serpapi.filterDupsAux, if_neg hc, List.filter_cons]
      rw [if_pos (by simp [hc])]
      rw [dedupBy_cons, ih (Serpapi.normalize_title p.title :: seen)]
      congr 1
      rw [List.filter_filter]
      congr 1
      apply List.filter_congr
      intro a _
      by_cases h1 : Serpapi.normalize_title a.title = Serpapi.normalize_title p.title <;>
        by_cases h2 : Serpapi.normalize_title a.title ∈ seen <;>
          simp [h1, h2]

/-! ## The claims -/

/-- C1 (corrected): for every input, if the input has more than 20 records
and the fuzzy pass keeps fewer than 20, `filter_duplicates` discards the
fuzzy result and reruns the exact-raw-title pass that stops at 30.  The
claimed "at least 20 (and at most 30) out of 25 records" additionally needs
the 25 records to carry pairwise-distinct non-empty titles: the exact pass
can only keep distinct titled records (see the counterexample). -/
theorem dedup_floor_guarantee (products : List Product) :
    (20 < products.length → (Dedup.fuzzyPass products).length < 20 →
      Dedup.filter_duplicates products = Dedup.exactPass products) ∧
    (products.length = 25 → (∀ p ∈ products, p.title ≠ "") →
      (products.map Product.title).Nodup → (Dedup.fuzzyPass products).length < 20 →
      20 ≤ (Dedup.filter_duplicates products).length ∧
        (Dedup.filter_duplicates products).length ≤ 30) := by
  have hmain : 20 < products.length → (Dedup.fuzzyPass products).length < 20 →
      Dedup.filter_duplicates products = Dedup.exactPass products := by
    intro h20 hf
    have hne : products.isEmpty = false := by
      cases products with
      | nil => simp at h20
      | cons a l => rfl
    rw [Dedup.filter_duplicates, hne]
    simp only [Bool.false_eq_true, if_false]
    rw [if_pos ⟨hf, h20⟩]
  refine ⟨hmain, fun h25 hne hnd hf => ?_⟩
  have h20 : 20 < products.length := by omega
  rw [hmain h20 hf, Dedup.exactPass,
    exactAux_of_fresh products [] 0 hne (by simp) hnd (by omega)]
  omega

/-- C1 counterexample: 25 records whose fuzzy pass keeps a single record
(so the exact-title rerun fires), but with only 13 distinct raw titles —
the output has 13 records, fewer than the claimed floor of 20. -/
theorem dedup_floor_guarantee_cex :
    c1CexProducts.length = 25 ∧ 20 < c1CexProducts.length ∧
    (Dedup.fuzzyPass c1CexProducts).length < 20 ∧
    (Dedup.filter_duplicates c1CexProducts).length = 13 ∧
    ¬ 20 ≤ (Dedup.filter_duplicates c1CexProducts).length := by decide

/-- C1 witness: 25 pairwise-distinct titled records that fuzzy matching
collapses to one; the exact-title rerun returns all 25, within [20, 30]. -/
theorem dedup_floor_guarantee_witness :
    c1WitnessProducts.length = 25 ∧ (∀ p ∈ c1WitnessProducts, p.title ≠ "") ∧
    (c1WitnessProducts.map Product.title).Nodup ∧
    (Dedup.fuzzyPass c1WitnessProducts).length < 20 ∧
    20 ≤ (Dedup.filter_duplicates c1WitnessProducts).length ∧
    (Dedup.filter_duplicates c1WitnessProducts).length ≤ 30 := by
  have h := (dedup_floor_guarantee c1WitnessProducts).2 (by decide) (by decide)
    (by decide) (by decide)
  exact ⟨by decide, by decide, by decide, by decide, h.1, h.2⟩

/-- C2 (corrected): the deduplication invoked by
`process_google_lens_response` is the module-local `filter_duplicates` of
`serpapi_service.py` — exact matching on serpapi-normalized titles, with no
fuzzy pass and no 20/30 floor — not the `filter_duplicates` of
`deduplication.py`.  First conjunct: the success pipeline factors through
the local dedup; second conjunct: that dedup is exactly
keep-first-per-normalized-title. -/
theorem gateway_dedup_refinement :
    (∀ (data : Serpapi.LensData) (maxResults : Nat),
      Serpapi.process_google_lens_response data maxResults =
        if data.hasError then []
        else
          let withPrice := (Serpapi.filter_duplicates (Serpapi.parseProducts data)).filter
            (fun p => priceTruthy p.price)
          if withPrice.isEmpty then [] else withPrice.take maxResults) ∧
    (∀ products : List Product,
      Serpapi.filter_duplicates products = Serpapi.dedupByNormalizedTitle products) := by
  refine ⟨fun data m => rfl, fun products => ?_⟩
  rw [Serpapi.filter_duplicates, filterDupsAux_eq_dedupBy]
  congr 1
  simp

/-- C2 counterexample: on two records titled `Ab (1)` and `Ab (2)` the
module-local dedup keeps one record while `deduplication.py` keeps both, so
the two functions disagree on the list the gateway feeds them. -/
theorem gateway_dedup_refinement_cex :
    Serpapi.filter_duplicates c2Products ≠ Dedup.filter_duplicates c2Products ∧
    (Serpapi.filter_duplicates c2Products).length = 1 ∧
    (Dedup.filter_duplicates c2Products).length = 2 ∧
    (Serpapi.process_google_lens_response c2Data 30).length = 1 := by decide

/-- C3 (confirmed): when every attempt fails at transport level, the gateway
makes exactly three outbound calls, sleeps the exponential backoff of 1s then
2s (each plus its jitter) after the first two, and ends by re-raising. -/
theorem retry_transport_exactly_three (resp : Nat → Gateway.Response) (jit : Nat → ℚ)
    (maxResults : Nat) (h0 : resp 0 = .transport) (h1 : resp 1 = .transport)
    (h2 : resp 2 = .transport) :
    Gateway.search_similar_products true resp jit maxResults =
      (.raised,
        [.call 0, .sleep (Gateway.jitterSleep 1 (jit 0)),
         .call 1, .sleep (Gateway.jitterSleep 2 (jit 1)), .call 2]) := by
  simp [Gateway.search_similar_products, Gateway.runAttempts, h0, h1, h2]

/-- C3 witness: three concrete transport failures with zero jitter. -/
theorem retry_transport_exactly_three_witness :
    Gateway.search_similar_products true (fun _ => .transport) (fun _ => 0) 30 =
      (.raised,
        [.call 0, .sleep (Gateway.jitterSleep 1 0),
         .call 1, .sleep (Gateway.jitterSleep 2 0), .call 2]) :=
  retry_transport_exactly_three (fun _ => .transport) (fun _ => 0) 30 rfl rfl rfl

/-- C4 (confirmed): when every attempt is rate-limited with HTTP 429, the
gateway sleeps the provider wait hint (2s when the header is absent) after
the first two attempts and returns an empty list — without raising — after
the third. -/
theorem rate_limit_429_exhaustion (resp : Nat → Gateway.Response) (jit : Nat → ℚ)
    (maxResults : Nat) (r0 r1 r2 : Option ℚ) (d0 d1 d2 : Serpapi.LensData)
    (h0 : resp 0 = .http 429 r0 d0) (h1 : resp 1 = .http 429 r1 d1)
    (h2 : resp 2 = .http 429 r2 d2) :
    Gateway.search_similar_products true resp jit maxResults =
      (.returned [], [.call 0, .sleep (r0.getD 2), .call 1, .sleep (r1.getD 2), .call 2]) := by
  simp [Gateway.search_similar_products, Gateway.runAttempts, h0, h1, h2]

/-- C4 witness: three concrete 429 responses without a Retry-After header;
both sleeps default to 2 seconds. -/
theorem rate_limit_429_exhaustion_witness :
    Gateway.search_similar_products true (fun _ => .http 429 none ⟨false, [], []⟩)
        (fun _ => 0) 30 =
      (.returned [], [.call 0, .sleep 2, .call 1, .sleep 2, .call 2]) :=
  rate_limit_429_exhaustion (fun _ => .http 429 none ⟨false, [], []⟩) (fun _ => 0) 30
    none none none ⟨false, [], []⟩ ⟨false, [], []⟩ ⟨false, [], []⟩ rfl rfl rfl

/-- C5 (corrected): when every attempt returns a 5xx status, the gateway
retries with the transport backoff but, after the third failure, returns an
empty list — it does not raise.  Only transport errors and unexpected
exceptions re-raise after exhaustion. -/
theorem server_error_exhaustion_amended (resp : Nat → Gateway.Response) (jit : Nat → ℚ)
    (maxResults : Nat) (s0 s1 s2 : Nat) (r0 r1 r2 : Option ℚ) (d0 d1 d2 : Serpapi.LensData)
    (h0 : resp 0 = .http s0 r0 d0) (h1 : resp 1 = .http s1 r1 d1)
    (h2 : resp 2 = .http s2 r2 d2)
    (hs0 : 500 ≤ s0 ∧ s0 < 600) (hs1 : 500 ≤ s1 ∧ s1 < 600) (hs2 : 500 ≤ s2 ∧ s2 < 600) :
    Gateway.search_similar_products true resp jit maxResults =
      (.returned [],
        [.call 0, .sleep (Gateway.jitterSleep 1 (jit 0)),
         .call 1, .sleep (Gateway.jitterSleep 2 (jit 1)), .call 2]) := by
  have n0 : s0 ≠ 429 := by omega
  have n1 : s1 ≠ 429 := by omega
  have n2 : s2 ≠ 429 := by omega
  have m0 : 400 ≤ s0 := by omega
  have m1 : 400 ≤ s1 := by omega
  have m2 : 400 ≤ s2 := by omega
  have k0 : 500 ≤ s0 ∧ s0 < 600 ∧ (0 : Nat) < 2 := ⟨hs0.1, hs0.2, by norm_num⟩
  have k1 : 500 ≤ s1 ∧ s1 < 600 ∧ (1 : Nat) < 2 := ⟨hs1.1, hs1.2, by norm_num⟩
  have k2 : ¬ (500 ≤ s2 ∧ s2 < 600 ∧ (2 : Nat) < 2) := by simp
  simp [Gateway.search_similar_products, Gateway.runAttempts, h0, h1, h2,
    n0, n1, n2, m0, m1, m2, k0, k1, k2]

/-- C5 counterexample: three concrete 500 responses end in `returned []`,
not in a raised error, refuting "propagate as a hard failure". -/
theorem server_error_exhaustion_cex :
    Gateway.search_similar_products true (fun _ => .http 500 none ⟨false, [], []⟩)
        (fun _ => 0) 30 =
      (.returned [], [.call 0, .sleep 1, .call 1, .sleep 2, .call 2]) ∧
    (Gateway.search_similar_products true (fun _ => .http 500 none ⟨false, [], []⟩)
        (fun _ => 0) 30).1 ≠ .raised := by
  have h : Gateway.search_similar_products true (fun _ => .http 500 none ⟨false, [], []⟩)
      (fun _ => 0) 30 =
      (.returned [], [.call 0, .sleep 1, .call 1, .sleep 2, .call 2]) := by
    simp [Gateway.search_similar_products, Gateway.runAttempts, Gateway.jitterSleep]
  exact ⟨h, by rw [h]; simp⟩

/-- C5 witness: three concrete 503 responses with zero jitter. -/
theorem server_error_exhaustion_amended_witness :
    Gateway.search_similar_products true (fun _ => .http 503 none ⟨false, [], []⟩)
        (fun _ => 0) 30 =
      (.returned [],
        [.call 0, .sleep (Gateway.jitterSleep 1 0),
         .call 1, .sleep (Gateway.jitterSleep 2 0), .call 2]) :=
  server_error_exhaustion_amended (fun _ => .http 503 none ⟨false, [], []⟩) (fun _ => 0) 30
    503 503 503 none none none ⟨false, [], []⟩ ⟨false, [], []⟩ ⟨false, [], []⟩
    rfl rfl rfl (by norm_num) (by norm_num) (by norm_num)

/-- C6 (code_bug evidence): `extract_price_from_text` on text with no
currency-like token returns the text itself, not `None` — `normalize_price`
falls through to `return price_str`.  A bare digit with no currency code is
also accepted.  The shopping pipeline therefore stores `"Nice Shirt"` as the
price of a priceless item titled `Nice Shirt`. -/
theorem price_extraction_fallback_bug :
    Serpapi.extract_price_from_text (some "Nice Shirt") = some "Nice Shirt" ∧
    Serpapi.normalize_price "Nice Shirt" = some "Nice Shirt" ∧
    (Serpapi.procShopping c6Item).price = some "Nice Shirt" ∧
    Serpapi.extract_price_from_text (some "Episode 2") = some "2" := by decide

/-- C7 (corrected): the `rating` of a normalized record carries a value only
when the source rating is a genuine number; but `reviews_count` passes the
first truthy of `reviews` / `reviews_count` through unvalidated, so
non-numeric values are carried, not dropped to null. -/
theorem rating_reviews_validation (vi : Serpapi.VisualItem) (si : Serpapi.ShoppingItem) :
    (∀ q : ℚ, (Serpapi.procVisual vi).rating = some q → vi.rating = some (.num q)) ∧
    ((Serpapi.procVisual vi).reviews_count = pyOrJ vi.reviews (pyOrJ vi.reviews_count none)) ∧
    (∀ q : ℚ, (Serpapi.procShopping si).rating = some q → si.rating = some (.num q)) ∧
    ((Serpapi.procShopping si).reviews_count = pyOrJ si.reviews (pyOrJ si.reviews_count none)) := by
  refine ⟨?_, rfl, ?_, rfl⟩
  · intro q hq
    cases hv : vi.rating with
    | none => simp [Serpapi.procVisual, hv] at hq
    | some v =>
      cases v with
      | s w => simp [Serpapi.procVisual, hv] at hq
      | num r => simp [Serpapi.procVisual, hv] at hq; rw [hq]
  · intro q hq
    cases hv : si.rating with
    | none => simp [Serpapi.procShopping, hv] at hq
    | some v =>
      cases v with
      | s w => simp [Serpapi.procShopping, hv] at hq
      | num r => simp [Serpapi.procShopping, hv] at hq; rw [hq]

/-- C7 counterexample: a visual item whose `reviews` holds the non-numeric
string `1,2k`; the normalized record carries it in `reviews_count` instead of
dropping it to null. -/
theorem rating_reviews_validation_cex :
    (Serpapi.procVisual c7Item).reviews_count = some (JVal.s "1,2k") ∧
    isNumber (JVal.s "1,2k") = false ∧
    (Serpapi.procVisual c7Item).reviews_count ≠ none := by decide

/-- C7 witness: a numeric visual rating is derived back from the record via
the theorem; a string shopping rating is dropped to null. -/
theorem rating_reviews_validation_witness :
    c7Item.rating = some (JVal.num 4) ∧
    c7ShopItem.rating = some (JVal.s "4.5 stars") ∧
    (Serpapi.procShopping c7ShopItem).rating = none ∧
    (Serpapi.procVisual c7Item).reviews_count = pyOrJ c7Item.reviews (pyOrJ c7Item.reviews_count none) :=
  ⟨(rating_reviews_validation c7Item c7ShopItem).1 4 rfl, rfl, rfl,
    (rating_reviews_validation c7Item c7ShopItem).2.1⟩

/-- C8 (code_bug evidence): the price-range filter matches the price column
against a REGEXP containing the comparison as literal pattern text, so with
`price_max=20` neither `$10.00` nor `$25.50` matches (the claim expects
`$10.00` to be returned), while a price string containing the literal text
`99 <= 20.0` does match. -/
theorem price_filter_regexp_bug :
    Db.get_filtered_results c8Rows 1 (some c8Filter) 0 100 = ([], 0) ∧
    Db.get_filtered_results [c8LiteralRow] 1 (some c8Filter) 0 100 = ([c8LiteralRow], 1) := by
  decide

/-- C9 (confirmed): for both the `async_cache` store and the `redis_cache`
in-memory fallback store, a lookup strictly later than insertion time plus
TTL ignores the stored entry, calls the wrapped function, and returns its
fresh result. -/
theorem cache_ttl_expiry {α : Type} (ttl : ℚ) (store : Cache.Store α) (key : String)
    (entry : Cache.Entry α) (tLookup tStore tStore2 tEvict : ℚ) (compute : α)
    (hfound : Cache.storeLookup store key = some entry)
    (hstale : entry.timestamp + ttl < tLookup) :
    (Cache.async_cache_call ttl store key tLookup tStore compute).1 = compute ∧
    (Cache.async_cache_call ttl store key tLookup tStore compute).2.2 = true ∧
    (Cache.redis_mem_call ttl store key tLookup tStore2 tEvict compute).1 = compute ∧
    (Cache.redis_mem_call ttl store key tLookup tStore2 tEvict compute).2.2 = true := by
  have hnot : ¬ (tLookup - entry.timestamp < ttl) := by linarith
  simp [Cache.async_cache_call, Cache.redis_mem_call, hfound, hnot]

/-- C9 witness: the spec's test — insert at t=0 with TTL=1, look up at t=2:
both backends miss and call the wrapped function (here returning 42). -/
theorem cache_ttl_expiry_witness :
    (Cache.async_cache_call 1 c9Store "k" 2 2 42).1 = 42 ∧
    (Cache.async_cache_call 1 c9Store "k" 2 2 42).2.2 = true ∧
    (Cache.redis_mem_call 1 c9Store "k" 2 2 2 42).1 = 42 ∧
    (Cache.redis_mem_call 1 c9Store "k" 2 2 2 42).2.2 = true :=
  cache_ttl_expiry 1 c9Store "k" ⟨7, 0⟩ 2 2 2 2 42 rfl (by norm_num)

/-- C10 (confirmed): both deduplication passes silently discard records with
an empty (or missing, read as empty) title, so every record in any
`filter_duplicates` output is non-trivially titled. -/
theorem dedup_untitled_discarded (products : List Product) :
    (∀ p ∈ Dedup.fuzzyPass products, p.title ≠ "") ∧
    (∀ p ∈ Dedup.exactPass products, p.title ≠ "") ∧
    (∀ p ∈ Dedup.filter_duplicates products, p.title ≠ "") := by
  refine ⟨fun p hp => fuzzyAux_title_ne products _ _ p hp,
    fun p hp => exactAux_title_ne products _ _ p hp, fun p hp => ?_⟩
  simp only [Dedup.filter_duplicates] at hp
  split_ifs at hp with h1 h2
  · simp at hp
  · exact exactAux_title_ne products _ _ p hp
  · exact fuzzyAux_title_ne products _ _ p hp

/-- C10 witness: an untitled record is dropped; the surviving record's
non-empty title is derived through the theorem. -/
theorem dedup_untitled_discarded_witness :
    Dedup.filter_duplicates [exP "", exP "A"] = [exP "A"] ∧ (exP "A").title ≠ "" :=
  ⟨by decide, (dedup_untitled_discarded [exP "", exP "A"]).2.2 (exP "A") (by decide)⟩

end Snapped
